import Mathlib

/-!
Verification of the TF-IDF retriever in
`parlai/agents/ir_baseline/ir_retrieve.py` (class `TfidfRetrieverAgent`).

The Python class is shallowly embedded below.  Mutable attributes of the
agent become fields of `IrRetrieve.AgentState`; Python attributes that are
only created by some code paths (`count_matrix`, `tfidfs`, `doc_freqs`,
`num_tokens`) are modelled as `Option` fields, where `none` means the
attribute is absent and any access to an absent attribute is an
`AttributeError`.  Methods become functions from state to
`Except String` results, where `.error` models an uncaught Python
exception.  The external tokenizer is passed in as a function argument and
the external numpy / scipy routines are modelled by their documented
behaviour on lists.
-/

namespace IrRetrieve

/-- Sparse count matrix as produced by
`sp.csr_matrix((freq_freq, (freq_token, freq_fact_id)), shape=...)` followed
by `sum_duplicates()`: a shape together with a total entry function. -/
structure CountMatrix where
  rows : Nat
  cols : Nat
  entry : Nat → Nat → Nat

/-- TF-IDF matrix produced by `_get_tfidf_from_count_matrix`; entries are
real numbers. -/
structure TfidfMatrix where
  rows : Nat
  cols : Nat
  entry : Nat → Nat → ℝ

/-- Argument passed to `_token2id`.  In the source the merge thread passes
integer token ids back into `_token2id` (line 234), while ordinary
ingestion passes raw token strings, so the argument is modelled as a sum. -/
inductive TokenArg where
  | str (s : String)
  | intId (n : Nat)

/-- State of one `TfidfRetrieverAgent` instance (the master, which owns the
shared document counter `num_docs`).  `db` models the rows of the sqlite
`document` table that have been successfully inserted. -/
structure AgentState where
  all_tokens : List (String × Nat)
  freq_token : List Nat
  freq_fact_id : List Nat
  freq_freq : List Nat
  insert_wait_list : List (Nat × String)
  db : List (Nat × String)
  num_docs : Nat
  cnt : Nat
  count_matrix : Option CountMatrix
  tfidfs : Option TfidfMatrix
  doc_freqs : Option (List Nat)
  num_tokens : Option Nat

/-- Fresh master state as set up by `__init__` with no pre-existing
retriever file: empty vocabulary, empty frequency lists, empty wait list,
shared counter at zero, and none of the lazily created cache attributes
(`count_matrix`, `tfidfs`, `doc_freqs`, `num_tokens`) present. -/
def initMaster : AgentState :=
  { all_tokens := []
    freq_token := []
    freq_fact_id := []
    freq_freq := []
    insert_wait_list := []
    db := []
    num_docs := 0
    cnt := 0
    count_matrix := none
    tfidfs := none
    doc_freqs := none
    num_tokens := none }

/-- `BUFFER_SIZE = 1000` (source line 39). -/
def BUFFER_SIZE : Nat := 1000

/-- Number of parameter placeholders in `FACT_QUERY`
(`INSERT INTO document (id,x,y) VALUES(?,?,?)`, source lines 43-46). -/
def factQueryArity : Nat := 3

/-- Number of components of each tuple appended to `insert_wait_list` by
`_insert_fact_without_id` (source line 184 appends `(new_fact_id, fact)`). -/
def waitRowArity : Nat := 2

/-- Columns of the sqlite table created by `__init__` (source lines 90-93):
`CREATE TABLE document (id INTEGER PRIMARY KEY, x TEXT, y TEXT ...)`. -/
def docTableColumns : List String := ["id", "x", "y"]

/-- Columns referenced by the lookup statement in `retrieve`
(source lines 390-393): `SELECT fact FROM document WHERE fact_id=?`. -/
def selectColumns : List String := ["fact", "fact_id"]

/-- Dictionary lookup in `self.all_tokens` (first match on the key). -/
def lookupToken : List (String × Nat) → String → Option Nat
  | [], _ => none
  | (t, i) :: rest, s => if s = t then some i else lookupToken rest s

/-- String-token path of `_token2id` (source lines 268-271): a new token is
assigned `id = len(self.all_tokens)` and inserted, an existing token keeps
its id. -/
def token2idStr (st : AgentState) (s : String) : AgentState × Nat :=
  match lookupToken st.all_tokens s with
  | some i => (st, i)
  | none =>
      let i := st.all_tokens.length
      ({ st with all_tokens := st.all_tokens ++ [(s, i)] }, i)

/-- `_token2id` (source lines 263-271).  An integer argument raises
`RuntimeError('surprise')` (line 265-266); a string argument never fails. -/
def token2id (st : AgentState) : TokenArg → Except String (AgentState × Nat)
  | .intId _ => .error "RuntimeError: surprise"
  | .str s => .ok (token2idStr st s)

/-- `_new_freq` (source lines 196-199): look up or create the token id,
then append one component to each of the three parallel frequency lists. -/
def newFreq (st : AgentState) (token : TokenArg) (fact_id freq : Nat) :
    Except String AgentState := do
  let (st, tid) ← token2id st token
  .ok { st with
          freq_token := st.freq_token ++ [tid]
          freq_fact_id := st.freq_fact_id ++ [fact_id]
          freq_freq := st.freq_freq ++ [freq] }

/-- `_flush_db_wait_list` (source lines 149-159).  The model is
single-threaded, so the lock acquisition always succeeds regardless of
`block`.  `executemany` binds each wait-list row (a 2-tuple) against the
3-placeholder `FACT_QUERY`, which raises `sqlite3.ProgrammingError`
whenever the wait list is nonempty. -/
def flushDbWaitList (st : AgentState) (_block : Bool) :
    Except String AgentState :=
  if st.insert_wait_list.isEmpty then .ok st
  else if waitRowArity = factQueryArity then
    .ok { st with db := st.db ++ st.insert_wait_list, insert_wait_list := [] }
  else
    .error "sqlite3.ProgrammingError: Incorrect number of bindings supplied. The current statement uses 3, and there are 2 supplied."

/-- `_new_fact_id` + `_insert_fact_without_id` (source lines 181-194):
take the next shared document id, append `(id, fact)` to the wait list,
and opportunistically flush once the wait list reaches `BUFFER_SIZE`. -/
def insertFactWithoutId (st : AgentState) (fact : String) :
    Except String (AgentState × Nat) := do
  let fid := st.num_docs
  let st := { st with
                num_docs := fid + 1
                insert_wait_list := st.insert_wait_list ++ [(fid, fact)] }
  if BUFFER_SIZE ≤ st.insert_wait_list.length then
    let st ← flushDbWaitList st false
    .ok (st, fid)
  else
    .ok (st, fid)

/-- Ascending insertion into a sorted list, used to model the sorted output
of `np.unique`. -/
def insSorted {α : Type} [Ord α] (x : α) : List α → List α
  | [] => [x]
  | y :: ys =>
      match compare x y with
      | .gt => y :: insSorted x ys
      | _ => x :: y :: ys

/-- Ascending sort (insertion sort), used to model the sorted output of
`np.unique`. -/
def sortAsc {α : Type} [Ord α] (l : List α) : List α :=
  l.foldr insSorted []

/-- `np.unique(l, return_counts=True)`: the distinct values of `l` in
ascending order, each paired with its number of occurrences in `l`. -/
def npUnique {α : Type} [Ord α] [DecidableEq α] (l : List α) :
    List (α × Nat) :=
  (sortAsc l.dedup).map (fun x => (x, l.count x))

/-- Python dict returned by `act` (source line 302). -/
structure ActReply where
  id : String
deriving DecidableEq

/-- Observation passed to `act`; only the presence of the `text` key
matters to the source (line 285). -/
structure Observation where
  text : Option String

/-- Cache-invalidation block at the top of `act` (source lines 279-284):
if the attribute `tfidfs` is present, delete `tfidfs`, `count_matrix`,
`doc_freqs` and `num_tokens` in that order; deleting an absent attribute
raises `AttributeError`. -/
def actInvalidate (st : AgentState) : Except String AgentState :=
  match st.tfidfs with
  | none => .ok st
  | some _ =>
      match st.count_matrix with
      | none => .error "AttributeError: count_matrix"
      | some _ =>
          match st.doc_freqs with
          | none => .error "AttributeError: doc_freqs"
          | some _ =>
              match st.num_tokens with
              | none => .error "AttributeError: num_tokens"
              | some _ =>
                  .ok { st with
                          tfidfs := none
                          count_matrix := none
                          doc_freqs := none
                          num_tokens := none }

/-- `act` (source lines 277-302): run the invalidation block, and if the
observation has a `text` field, insert the fact and record one frequency
triple per distinct token (in the sorted order produced by `np.unique`).
Always returns the dict `{'id': 'TfidfRetriever'}` on success. -/
def act (tok : String → List String) (st : AgentState) (obs : Observation) :
    Except String (AgentState × ActReply) := do
  let st ← actInvalidate st
  match obs.text with
  | none => .ok (st, { id := "TfidfRetriever" })
  | some fact => do
      let st := { st with cnt := st.cnt + 1 }
      let (st, fact_id) ← insertFactWithoutId st fact
      let st ← (npUnique (tok fact)).foldlM
        (fun s tc => newFreq s (.str tc.1) fact_id tc.2) st
      .ok (st, { id := "TfidfRetriever" })

/-- Simple whitespace tokenizer standing in for the external DrQA
tokenizer in concrete scenarios. -/
def wsTokenize (s : String) : List String :=
  (s.splitOn " ").filter (fun t => ¬ t.isEmpty)

/-- Well-formedness of the vocabulary dict: the ids are exactly
`0, 1, ..., size - 1` in insertion order and no token string occurs
twice.  This is the dense, gap-free id space described by the spec. -/
def VocabWF (v : List (String × Nat)) : Prop :=
  v.map Prod.snd = List.range v.length ∧ (v.map Prod.fst).Nodup

instance (v : List (String × Nat)) : Decidable (VocabWF v) := by
  unfold VocabWF; infer_instance

/-- Dictionary lookup in a child remap table
(`self.child_token_map[queue_ind]`); the latest assignment wins, and a
missing key is a `KeyError`. -/
def remapLookup : List (Nat × Nat) → Nat → Option Nat
  | [], _ => none
  | (k, v) :: rest, k' =>
      match remapLookup rest k' with
      | some r => some r
      | none => if k' = k then some v else none

/-- Vocabulary-message branch of `_process_child_data` (source lines
226-229): each (token, child-local id) pair in the child dict is mapped
through the master's `_token2id` (string path, which also creates
master-global ids as needed) and recorded in the remap table. -/
def processVocab (st : AgentState) (remap : List (Nat × Nat)) :
    List (String × Nat) → AgentState × List (Nat × Nat)
  | [] => (st, remap)
  | (tok, tid) :: rest =>
      let (st', trueId) := token2idStr st tok
      processVocab st' (remap ++ [(tid, trueId)]) rest

/-- Frequency-message branch of `_process_child_data` (source lines
230-237): for each index of the child's parallel lists, the child-local
token id is translated through the remap table and the record is re-emitted
through `_new_freq`.  The translated id is an integer, and `_new_freq`
hands it straight back to `_token2id`. -/
def processFreqs (st : AgentState) (remap : List (Nat × Nat))
    (token_ids fact_ids freqs : List Nat) : Except String AgentState :=
  (List.range token_ids.length).foldlM
    (fun s ind =>
      match remapLookup remap (token_ids.getD ind 0) with
      | some gid => newFreq s (.intId gid) (fact_ids.getD ind 0) (freqs.getD ind 0)
      | none => .error "KeyError")
    st

/-- Messages a child sends on its queue during its `shutdown` (source
lines 329-338): the vocabulary dict, then the three parallel frequency
lists, then the `EOD` sentinel. -/
inductive ChildMsg where
  | vocab (m : List (String × Nat))
  | freqs (token_ids fact_ids freqs : List Nat)
  | eod

/-- Message loop of `_process_child_data` for one child queue (source
lines 218-239): a dict message merges the child vocabulary into the master
and extends the remap table, a list message re-emits the frequency
records, and the `EOD` sentinel ends the loop for this child. -/
def processChildMsgs (st : AgentState) (remap : List (Nat × Nat)) :
    List ChildMsg → Except String AgentState
  | [] => .ok st
  | .eod :: _ => .ok st
  | .vocab m :: rest =>
      let p := processVocab st remap m
      processChildMsgs p.1 p.2 rest
  | .freqs t f fr :: rest => do
      let st' ← processFreqs st remap t f fr
      processChildMsgs st' remap rest

/-- Sequential duplicate-summing accumulation of COO triples, modelling
`sp.csr_matrix((freq_freq, (freq_token, freq_fact_id)), shape=...)`
followed by `count_matrix.sum_duplicates()` (source lines 129-133): the
(t, d) entry collects the count of every triple addressed to that cell. -/
def cooSum : List (Nat × Nat × Nat) → Nat → Nat → Nat
  | [], _, _ => 0
  | (tk, fd, fr) :: rest, t, d =>
      (if t = tk ∧ d = fd then fr else 0) + cooSum rest t d

/-- The accumulated frequency records of a state, as
(token id, document id, count) triples read off the three parallel
lists. -/
def records (st : AgentState) : List (Nat × Nat × Nat) :=
  st.freq_token.zip (st.freq_fact_id.zip st.freq_freq)

/-- `_get_count_matrix` (source lines 126-135): return the cached matrix
when the `count_matrix` attribute is present, otherwise build the sparse
matrix from the three parallel frequency lists, cache it and return it.
The source writes the row dimension as `self.len(self.all_tokens)`, which
resolves through the `Agent` base class (`parlai/core/agents.py`), not
part of the sources given here.  Modelled from the spec: the shape is
(vocabulary_size, document_count), so the row dimension is the size of
`self.all_tokens`. -/
def getCountMatrix (st : AgentState) : AgentState × CountMatrix :=
  match st.count_matrix with
  | some m => (st, m)
  | none =>
      let m : CountMatrix :=
        { rows := st.all_tokens.length
          cols := st.num_docs
          entry := cooSum (records st) }
      ({ st with count_matrix := some m }, m)

/-- Binarized occurrence `(count_matrix > 0).astype(int)` (source line
140). -/
def binaryEntry (cm : CountMatrix) (t d : Nat) : Nat :=
  if 0 < cm.entry t d then 1 else 0

/-- Per-token document frequency `Ns = np.array(binary.sum(1)).squeeze()`
(source line 141): row sums of the binarized matrix. -/
def NsRow (cm : CountMatrix) (t : Nat) : Nat :=
  ((List.range cm.cols).map (binaryEntry cm t)).sum

/-- Raw idf `np.log((count_matrix.shape[1] - Ns + 0.5) / (Ns + 0.5))`
(source line 142). -/
noncomputable def idfRaw (cm : CountMatrix) (t : Nat) : ℝ :=
  Real.log (((cm.cols : ℝ) - (NsRow cm t : ℝ) + 0.5) / ((NsRow cm t : ℝ) + 0.5))

/-- Clamped idf: the masked assignment `idfs[idfs < 0] = 0` (source line
143). -/
noncomputable def idfClamped (cm : CountMatrix) (t : Nat) : ℝ :=
  if idfRaw cm t < 0 then 0 else idfRaw cm t

/-- Log-dampened term frequency `tfs = count_matrix.log1p()` (source line
145). -/
noncomputable def tfEntry (cm : CountMatrix) (t d : Nat) : ℝ :=
  Real.log (1 + (cm.entry t d : ℝ))

/-- One entry of `idfs.dot(tfs)` where `idfs` has been wrapped into a
diagonal matrix by `sp.diags(idfs, 0)` (source lines 144-146): the product
scales row `t` of `tfs` by the clamped idf of token `t`. -/
noncomputable def tfidfEntry (cm : CountMatrix) (t d : Nat) : ℝ :=
  idfClamped cm t * tfEntry cm t d

/-- `_get_tfidf_from_count_matrix` (source lines 137-147): return the
cached `tfidfs` when the attribute is present, otherwise build the TF-IDF
matrix from the count matrix, cache it and return it. -/
noncomputable def getTfidfFromCountMatrix (st : AgentState) (cm : CountMatrix) :
    AgentState × TfidfMatrix :=
  match st.tfidfs with
  | some m => (st, m)
  | none =>
      let m : TfidfMatrix := ⟨cm.rows, cm.cols, tfidfEntry cm⟩
      ({ st with tfidfs := some m }, m)

/-- `compute_tfidf` (source lines 351-352):
`self._get_tfidf_from_count_matrix(self._get_count_matrix())`. -/
noncomputable def computeTfidf (st : AgentState) : AgentState × TfidfMatrix :=
  let p := getCountMatrix st
  getTfidfFromCountMatrix p.1 p.2

/-- Number of documents that contain token `t` at least once: the `N_t`
of the spec. -/
def docFreqSpec (cm : CountMatrix) (t : Nat) : Nat :=
  (List.range cm.cols).countP (fun d => decide (0 < cm.entry t d))

/-- Master branch of `shutdown` (source lines 327-344).  A master instance
has no `comm_queue` attribute, so it takes the else branch: flush the wait
list, then call `self.start_data_collection()`.  The definition of
`start_data_collection` is commented out in the source (lines 346-349), so
that attribute lookup raises `AttributeError` before the merge-thread join
and the `save` call are ever reached. -/
def shutdownMaster (st : AgentState) : Except String AgentState := do
  let _st ← flushDbWaitList st true
  .error "AttributeError: start_data_collection"

/-- Insertion of an element into a list sorted by strictly descending key:
the new element goes in front of the first element with a strictly smaller
key. -/
def insertDescBy {α β : Type} [LinearOrder β] (key : α → β) (x : α) :
    List α → List α
  | [] => [x]
  | y :: ys =>
      if key y < key x then x :: y :: ys else y :: insertDescBy key x ys

/-- Insertion sort by descending key.  This models the descending order
produced by `np.argsort(-values)`; numpy leaves the order of ties
unspecified, and which tie order an implementation produces does not
matter for the value-level statements proved below. -/
def sortDescBy {α β : Type} [LinearOrder β] (key : α → β) (l : List α) :
    List α :=
  l.foldr (insertDescBy key) []

/-- `np.argsort(-data)` (source line 383): the positions `0..len(data)-1`
ordered by descending data value. -/
def argsortDesc {β : Type} [LinearOrder β] [Zero β] (data : List β) :
    List Nat :=
  sortDescBy (fun i => data.getD i 0) (List.range data.length)

/-- Top-k selection step of `retrieve` (source lines 382-388).  `data` is
`res.data`, the vector of nonzero scores, and `o` stands for the first
`max_results` positions returned by `np.argpartition(-res.data,
max_results)` (numpy promises these carry the `max_results` largest values
in unspecified order; the theorems below quantify over every such `o`).
When the data is short a full descending argsort is used; otherwise the
selected positions are sorted by gathering their values, argsorting those
and indexing `o` back, exactly as `o[np.argsort(-res.data[o])]`. -/
def topKSelect {β : Type} [LinearOrder β] [Zero β] (data : List β)
    (max_results : Nat) (o : List Nat) : List Nat :=
  if data.length ≤ max_results then argsortDesc data
  else (argsortDesc (o.map (fun i => data.getD i 0))).map (fun j => o.getD j 0)

/-- One iteration of the result loop of `retrieve` (source lines 389-394):
`SELECT fact FROM document WHERE fact_id=?` followed by
`fetchall()[0][0]`.  sqlite raises `OperationalError` when the statement
references a column absent from the table; the `document` table was
created with columns (id, x, y). -/
def docLookup (db : List (Nat × String)) (doc_id : Nat) :
    Except String String :=
  if selectColumns.all (fun c => docTableColumns.contains c) then
    match db.find? (fun r => r.1 == doc_id) with
    | some r => .ok r.2
    | none => .error "IndexError: list index out of range"
  else .error "sqlite3.OperationalError: no such column: fact"

/-- The yield loop of `retrieve` (source lines 389-394): one document
lookup per result id, in result order. -/
def retrieveYield (db : List (Nat × String)) (doc_ids : List Nat) :
    Except String (List String) :=
  doc_ids.mapM (docLookup db)

/-- `load` (source lines 304-310): set `all_tokens` and `count_matrix`
from the persisted artifacts, recover the document count from the
column dimension of the loaded matrix, and immediately derive the TF-IDF
cache via `_get_tfidf_from_count_matrix`.  `load` does not set
`doc_freqs`. -/
noncomputable def load (st : AgentState) (tokens : List (String × Nat))
    (cm : CountMatrix) : AgentState :=
  let st := { st with
                all_tokens := tokens
                count_matrix := some cm
                num_docs := cm.cols }
  (getTfidfFromCountMatrix st cm).1

open Classical in
/-- `retrieve` (source lines 360-394): flush pending writes, drop query
tokens absent from the vocabulary, return nothing when no token survives,
ensure the TF-IDF matrix is current, build the one-row query vector from
`tf = log(1 + count)` and the idf read off `self.doc_freqs` (an attribute
no live code path ever assigns, modelled as the `doc_freqs` option field),
multiply against the TF-IDF matrix, select the top `max_results` columns
and look each resulting document up in the database.  The row dimension of
the query vector is written `self.len(self.all_tokens)` in the source; as
in `_get_count_matrix` it is modelled from the spec as the vocabulary
size.  `np.argpartition` is instantiated here with the canonical valid
selection (the first `max_results` positions of the full descending
argsort). -/
noncomputable def retrieve (tok : String → List String) (st : AgentState)
    (query : String) (max_results : Nat) :
    Except String (AgentState × List String) := do
  let st ← flushDbWaitList st true
  let tokens := (tok query).filter
    (fun t => (lookupToken st.all_tokens t).isSome)
  if tokens.isEmpty then
    .ok (st, [])
  else
    let p := computeTfidf st
    let st := p.1
    let tfm := p.2
    let q := tokens.foldl
      (fun (q : AgentState × List Nat) t =>
        let r := token2idStr q.1 t
        (r.1, q.2 ++ [r.2])) (st, [])
    let st := q.1
    let wids := q.2
    let uniq := npUnique wids
    let tfsQ : List ℝ := uniq.map (fun pr => Real.log (1 + (pr.2 : ℝ)))
    match st.doc_freqs with
    | none => .error "AttributeError: doc_freqs"
    | some df =>
        let ns : List Nat := uniq.map (fun pr => df.getD pr.1 0)
        let idfsQ : List ℝ := ns.map (fun n =>
          Real.log (((st.num_docs : ℝ) - (n : ℝ) + 0.5) / ((n : ℝ) + 0.5)))
        let idfsC : List ℝ := idfsQ.map (fun x => if x < 0 then 0 else x)
        let qdata : List ℝ := List.zipWith (· * ·) tfsQ idfsC
        let qvec : Nat → ℝ := fun tIdx =>
          match ((uniq.map Prod.fst).zip qdata).find? (fun pr => pr.1 == tIdx) with
          | some pr => pr.2
          | none => 0
        let score : Nat → ℝ := fun dcol =>
          ((List.range st.all_tokens.length).map
            (fun t => qvec t * tfm.entry t dcol)).sum
        let nz : List Nat :=
          (List.range tfm.cols).filter (fun dcol => decide (score dcol ≠ 0))
        let data : List ℝ := nz.map score
        let oPart : List Nat := (argsortDesc data).take max_results
        let oSort := topKSelect data max_results oPart
        let doc_ids := oSort.map (fun j => nz.getD j 0)
        let texts ← retrieveYield st.db doc_ids
        .ok (st, texts)

/-- Concrete state used to exercise the count-matrix build: one token with
two duplicate records for document 1 (counts 2 and 3) and two documents. -/
def stC5 : AgentState :=
  { initMaster with
      all_tokens := [("a", 0)]
      freq_token := [0, 0]
      freq_fact_id := [1, 1]
      freq_freq := [2, 3]
      num_docs := 2 }

/-- One-cell count matrix: the single token occurs once in the single
document, so its document frequency equals the document count. -/
def cmOnes : CountMatrix := { rows := 1, cols := 1, entry := fun _ _ => 1 }

theorem lookupToken_append (v w : List (String × Nat)) (s : String) :
    lookupToken (v ++ w) s =
      (lookupToken v s).orElse (fun _ => lookupToken w s) := by
  induction v with
  | nil => rfl
  | cons p rest ih =>
      cases p with
      | mk t i =>
          by_cases h : s = t
          · simp [lookupToken, h]
          · simp [lookupToken, h, ih]

theorem lookupToken_none_not_mem (v : List (String × Nat)) (s : String)
    (h : lookupToken v s = none) : s ∉ v.map Prod.fst := by
  induction v with
  | nil => simp
  | cons p rest ih =>
      cases p with
      | mk t i =>
          by_cases hs : s = t
          · simp [lookupToken, hs] at h
          · simp only [lookupToken, if_neg hs] at h
            simp [hs, ih h]

/-- C1: the claim says that for a query containing a known token the
query vector weighs each surviving token by `tf * idf` computed from the
current document frequencies.  In the code the query-time idf reads
`self.doc_freqs` (source line 371), which no live code path ever assigns
(only the commented-out deprecated `_get_doc_freqs` would), so `retrieve`
raises `AttributeError` before any weight is computed.  Here the index
holding one document containing the known token `a` is queried for `a`. -/
theorem retrieve_doc_freqs_attribute_error :
    retrieve (fun s => [s]) (load initMaster [("a", 0)] cmOnes) "a" 100 =
      .error "AttributeError: doc_freqs" := rfl

/-- C3: the claim says that ingesting one more fact after the TF-IDF cache
was built invalidates both caches and the next access rebuilds them.  In
the code the invalidation block of `act` executes `del self.doc_freqs`
and `del self.num_tokens` (source lines 283-284), attributes that no live
code path ever sets, so the very next `act` after a TF-IDF build raises
`AttributeError` instead of invalidating.  Here one fact is ingested, the
TF-IDF build of `retrieve` is run via `compute_tfidf`, and a second fact
is ingested. -/
theorem act_after_tfidf_build_attribute_error :
    (do
      let p ← act (fun s => [s]) initMaster { text := some "a" }
      let st := (computeTfidf p.1).1
      act (fun s => [s]) st { text := some "b" }) =
      .error "AttributeError: doc_freqs" := rfl

/-- C9: the claim says each per-result document lookup succeeds for every
previously ingested id.  The lookup statement is
`SELECT fact FROM document WHERE fact_id=?` (source lines 390-393), but
the `document` table is created with columns (id, x, y) and filled through
`INSERT INTO document (id,x,y)` (source lines 43-46 and 90-93), so every
lookup raises `sqlite3.OperationalError` even when the row is present. -/
theorem doc_lookup_no_such_column :
    retrieveYield [(0, "hello world")] [0] =
      .error "sqlite3.OperationalError: no such column: fact" := rfl

/-- C2: the claim says that splitting facts across workers and merging via
the vocabulary-then-frequencies protocol yields the same per-token,
per-document counts as single-instance processing.  In the code the merge
loop re-emits every child frequency record by passing the already-remapped
integer token id back through `_token2id`, whose integer guard raises
`RuntimeError('surprise')` (source lines 234 and 263-266), so the merge
dies on the first frequency record of the first child: here a child that
contributed one token `a` and one record (0, 0, 1). -/
theorem merge_first_record_raises_surprise :
    processChildMsgs initMaster []
      [.vocab [("a", 0)], .freqs [0] [0] [1], .eod] =
      .error "RuntimeError: surprise" := rfl

/-- C4: the claim says master `shutdown()` flushes, merges the workers and
saves, returning normally.  In the code the master branch calls
`self.start_data_collection()`, whose definition is commented out
(source lines 342 and 346-349), so `shutdown` on a fresh master raises
`AttributeError` instead of returning. -/
theorem master_shutdown_attribute_error :
    shutdownMaster initMaster = .error "AttributeError: start_data_collection" :=
  rfl

/-- C8: on a well-formed vocabulary, `_token2id` is idempotent (the same
token yields the same id twice, without changing the vocabulary), two
distinct never-seen tokens get the two consecutive ids `size` and
`size + 1`, a new token is always assigned the current vocabulary size,
and the id space stays dense (ids are exactly `0..size-1`) with one id per
distinct token. -/
theorem token2id_dense_ids (st : AgentState) (a b : String)
    (hwf : VocabWF st.all_tokens)
    (ha : lookupToken st.all_tokens a = none)
    (hb : lookupToken st.all_tokens b = none)
    (hab : a ≠ b) :
    ∃ st1 st2 ia ib,
      token2id st (.str a) = .ok (st1, ia) ∧
      token2id st1 (.str a) = .ok (st1, ia) ∧
      token2id st1 (.str b) = .ok (st2, ib) ∧
      ia = st.all_tokens.length ∧
      ib = ia + 1 ∧
      ia ≠ ib ∧
      VocabWF st2.all_tokens ∧
      st2.all_tokens.length = st.all_tokens.length + 2 := by
  obtain ⟨hids, hkeys⟩ := hwf
  refine ⟨{ st with all_tokens := st.all_tokens ++ [(a, st.all_tokens.length)] },
          { st with all_tokens :=
              (st.all_tokens ++ [(a, st.all_tokens.length)]) ++
                [(b, st.all_tokens.length + 1)] },
          st.all_tokens.length, st.all_tokens.length + 1,
          ?_, ?_, ?_, rfl, rfl, by omega, ?_, by simp⟩
  · simp [token2id, token2idStr, ha]
  · simp [token2id, token2idStr, lookupToken_append, ha, lookupToken]
  · have hba : ¬ (b = a) := fun h => hab h.symm
    simp [token2id, token2idStr, lookupToken_append, ha, hb, lookupToken, hba]
  · constructor
    · simp [hids, List.range_succ]
    · have hnota : a ∉ st.all_tokens.map Prod.fst :=
        lookupToken_none_not_mem _ _ ha
      have hnotb : b ∉ st.all_tokens.map Prod.fst :=
        lookupToken_none_not_mem _ _ hb
      simp only [List.map_append, List.map_cons, List.map_nil]
      rw [List.append_assoc]
      refine List.Nodup.append hkeys ?_ ?_
      · simp [hab]
      · intro x hx hx2
        simp at hx2
        rcases hx2 with h1 | h1 <;> subst h1 <;> [exact hnota hx; exact hnotb hx]

/-- C8 witness: instantiating at the fresh master vocabulary with the two
distinct fresh tokens `a` and `b`. -/
theorem token2id_dense_ids_witness :
    VocabWF initMaster.all_tokens ∧
    lookupToken initMaster.all_tokens "a" = none ∧
    lookupToken initMaster.all_tokens "b" = none ∧
    ("a" : String) ≠ "b" ∧
    (∃ st1 st2 ia ib,
      token2id initMaster (.str "a") = .ok (st1, ia) ∧
      token2id st1 (.str "a") = .ok (st1, ia) ∧
      token2id st1 (.str "b") = .ok (st2, ib) ∧
      ia = initMaster.all_tokens.length ∧
      ib = ia + 1 ∧
      ia ≠ ib ∧
      VocabWF st2.all_tokens ∧
      st2.all_tokens.length = initMaster.all_tokens.length + 2) :=
  ⟨by decide, rfl, rfl, by decide,
    token2id_dense_ids initMaster "a" "b" (by decide) rfl rfl (by decide)⟩

theorem insertDescBy_perm {α β : Type} [LinearOrder β] (key : α → β)
    (x : α) (l : List α) : List.Perm (insertDescBy key x l) (x :: l) := by
  induction l with
  | nil => exact List.Perm.refl _
  | cons y ys ih =>
      rw [insertDescBy]
      by_cases h : key y < key x
      · rw [if_pos h]
      · rw [if_neg h]
        exact (List.Perm.cons y ih).trans (List.Perm.swap x y ys)

theorem sortDescBy_perm {α β : Type} [LinearOrder β] (key : α → β)
    (l : List α) : List.Perm (sortDescBy key l) l := by
  induction l with
  | nil => exact List.Perm.refl _
  | cons x xs ih =>
      exact (insertDescBy_perm key x (sortDescBy key xs)).trans
        (List.Perm.cons x ih)

theorem insertDescBy_map {α γ β : Type} [LinearOrder β] (key : α → β)
    (key2 : γ → β) (f : α → γ) (x : α) (l : List α)
    (hx : key x = key2 (f x)) (hl : ∀ a ∈ l, key a = key2 (f a)) :
    (insertDescBy key x l).map f = insertDescBy key2 (f x) (l.map f) := by
  induction l with
  | nil => rfl
  | cons y ys ih =>
      have hy : key y = key2 (f y) := hl y (by simp)
      have hys : ∀ a ∈ ys, key a = key2 (f a) := fun a ha => hl a (by simp [ha])
      rw [insertDescBy, List.map_cons, insertDescBy, ← hy, ← hx]
      by_cases h : key y < key x
      · rw [if_pos h, if_pos h, List.map_cons, List.map_cons]
      · rw [if_neg h, if_neg h, List.map_cons, ih hys]

theorem sortDescBy_map {α γ β : Type} [LinearOrder β] (key : α → β)
    (key2 : γ → β) (f : α → γ) (l : List α)
    (hl : ∀ a ∈ l, key a = key2 (f a)) :
    (sortDescBy key l).map f = sortDescBy key2 (l.map f) := by
  induction l with
  | nil => rfl
  | cons x xs ih =>
      have hx : key x = key2 (f x) := hl x (by simp)
      have hxs : ∀ a ∈ xs, key a = key2 (f a) := fun a ha => hl a (by simp [ha])
      calc (sortDescBy key (x :: xs)).map f
          = (insertDescBy key x (sortDescBy key xs)).map f := rfl
        _ = insertDescBy key2 (f x) ((sortDescBy key xs).map f) := by
            refine insertDescBy_map key key2 f x _ hx ?_
            intro a ha
            exact hxs a ((sortDescBy_perm key xs).mem_iff.mp ha)
        _ = insertDescBy key2 (f x) (sortDescBy key2 (xs.map f)) := by
            rw [ih hxs]
        _ = sortDescBy key2 ((x :: xs).map f) := rfl

theorem insertDescBy_id_sorted {β : Type} [LinearOrder β] (x : β)
    (l : List β) (h : l.Sorted (fun a b => b ≤ a)) :
    (insertDescBy id x l).Sorted (fun a b => b ≤ a) := by
  induction l with
  | nil => simp [insertDescBy]
  | cons y ys ih =>
      rw [List.sorted_cons] at h
      obtain ⟨hy, hys⟩ := h
      rw [insertDescBy]
      by_cases hxy : id y < id x
      · rw [if_pos hxy]
        rw [List.sorted_cons]
        refine ⟨?_, List.sorted_cons.mpr ⟨hy, hys⟩⟩
        intro b hb
        rcases List.mem_cons.mp hb with rfl | hb2
        · exact le_of_lt hxy
        · exact (hy b hb2).trans (le_of_lt hxy)
      · rw [if_neg hxy]
        rw [List.sorted_cons]
        refine ⟨?_, ih hys⟩
        intro b hb
        have hb2 := (insertDescBy_perm id x ys).mem_iff.mp hb
        rcases List.mem_cons.mp hb2 with rfl | hb3
        · exact not_lt.mp hxy
        · exact hy b hb3

theorem sortDescBy_id_sorted {β : Type} [LinearOrder β] (l : List β) :
    (sortDescBy id l).Sorted (fun a b => b ≤ a) := by
  induction l with
  | nil => simp [sortDescBy]
  | cons x xs ih => exact insertDescBy_id_sorted x _ ih

theorem map_getD_range {β : Type} (z : β) (l : List β) :
    (List.range l.length).map (fun i => l.getD i z) = l := by
  induction l with
  | nil => rfl
  | cons x xs ih =>
      rw [List.length_cons, List.range_succ_eq_map, List.map_cons,
        List.map_map]
      simp only [Function.comp_def, List.getD_cons_zero, List.getD_cons_succ]
      rw [ih]

/-- C6: the top-k selection of `retrieve` agrees between its two paths:
whenever the full-sort branch is taken (at most `max_results` nonzero
scores) or the partition branch is taken with any position selection `o`
satisfying the `np.argpartition` contract (`o` lists `max_results`
positions and, together with the leftover positions `rest`, exhausts the
data, with every selected value at least every unselected value), the
scores of the returned positions are exactly the `max_results` largest
scores in descending order (ties broken arbitrarily at the position
level). -/
theorem top_k_selection_agrees (β : Type) [LinearOrder β] [Zero β]
    (data : List β) (max_results : Nat) (o rest : List Nat)
    (h : data.length ≤ max_results ∨
      (List.Perm (o ++ rest) (List.range data.length) ∧
        o.length = max_results ∧
        ∀ i ∈ o, ∀ j ∈ rest, data.getD j 0 ≤ data.getD i 0)) :
    (topKSelect data max_results o).map (fun i => data.getD i 0) =
      (sortDescBy id data).take max_results := by
  haveI : IsAntisymm β (fun a b => b ≤ a) :=
    ⟨fun a b h1 h2 => le_antisymm h2 h1⟩
  by_cases hlen : data.length ≤ max_results
  · rw [topKSelect, if_pos hlen, argsortDesc,
      sortDescBy_map (fun i => data.getD i 0) id (fun i => data.getD i 0)
        (List.range data.length) (fun a _ => rfl),
      map_getD_range, List.take_of_length_le]
    exact le_trans (le_of_eq (sortDescBy_perm id data).length_eq) hlen
  · obtain ⟨hperm, hleno, hdom⟩ := h.resolve_left hlen
    rw [topKSelect, if_neg hlen, List.map_map]
    have hgj : ∀ j ∈ argsortDesc (o.map (fun i => data.getD i 0)),
        j < o.length := by
      intro j hj
      have := (sortDescBy_perm _ _).mem_iff.mp hj
      simpa using this
    have hstep1 :
        (argsortDesc (o.map (fun i => data.getD i 0))).map
            ((fun i => data.getD i 0) ∘ (fun j => o.getD j 0)) =
          (argsortDesc (o.map (fun i => data.getD i 0))).map
            (fun j => (o.map (fun i => data.getD i 0)).getD j 0) := by
      apply List.map_congr_left
      intro j hj
      have hjlt := hgj j hj
      simp only [Function.comp_def]
      rw [List.getD_eq_getElem (o.map (fun i => data.getD i 0)) 0
          (by simpa using hjlt),
        List.getElem_map, List.getD_eq_getElem o 0 hjlt]
    have hstep2 :
        (argsortDesc (o.map (fun i => data.getD i 0))).map
            (fun j => (o.map (fun i => data.getD i 0)).getD j 0) =
          sortDescBy id (o.map (fun i => data.getD i 0)) := by
      rw [argsortDesc,
        sortDescBy_map (fun j => (o.map (fun i => data.getD i 0)).getD j 0)
          id (fun j => (o.map (fun i => data.getD i 0)).getD j 0)
          (List.range (o.map (fun i => data.getD i 0)).length)
          (fun a _ => rfl),
        map_getD_range]
    rw [hstep1, hstep2]
    have hcat :
        sortDescBy id (o.map (fun i => data.getD i 0)) ++
            sortDescBy id (rest.map (fun i => data.getD i 0)) =
          sortDescBy id data := by
      apply List.eq_of_perm_of_sorted (r := fun a b => b ≤ a)
      · refine List.Perm.trans
          (List.Perm.append (sortDescBy_perm id _) (sortDescBy_perm id _)) ?_
        refine List.Perm.trans (List.Perm.of_eq (List.map_append _ o rest).symm) ?_
        refine List.Perm.trans (hperm.map (fun i => data.getD i 0)) ?_
        refine List.Perm.trans (List.Perm.of_eq (map_getD_range 0 data)) ?_
        exact (sortDescBy_perm id data).symm
      · apply List.pairwise_append.mpr
        refine ⟨sortDescBy_id_sorted _, sortDescBy_id_sorted _, ?_⟩
        intro a ha b hb
        have ha2 := (sortDescBy_perm id _).mem_iff.mp ha
        have hb2 := (sortDescBy_perm id _).mem_iff.mp hb
        obtain ⟨i, hi, rfl⟩ := List.mem_map.mp ha2
        obtain ⟨j, hj, rfl⟩ := List.mem_map.mp hb2
        exact hdom i hi j hj
      · exact sortDescBy_id_sorted data
    rw [← hcat]
    have hs1len : (sortDescBy id (o.map (fun i => data.getD i 0))).length =
        max_results := by
      rw [(sortDescBy_perm id _).length_eq, List.length_map, hleno]
    rw [← hs1len, List.take_left]

/-- C6 witness: the concrete instance of the claim, `max_results = 2` over
5 documents with scores [5, 3, 4, 1, 2] in position order, with the
partition output `o = [2, 0]` (positions of the two largest scores, given
in unsorted order): the selected scores come out as [5, 4]. -/
theorem top_k_selection_agrees_witness :
    (([5, 3, 4, 1, 2] : List ℤ).length ≤ 2 ∨
      (List.Perm ([2, 0] ++ [1, 3, 4])
          (List.range ([5, 3, 4, 1, 2] : List ℤ).length) ∧
        ([2, 0] : List Nat).length = 2 ∧
        ∀ i ∈ ([2, 0] : List Nat), ∀ j ∈ ([1, 3, 4] : List Nat),
          ([5, 3, 4, 1, 2] : List ℤ).getD j 0 ≤
            ([5, 3, 4, 1, 2] : List ℤ).getD i 0)) ∧
    (topKSelect ([5, 3, 4, 1, 2] : List ℤ) 2 [2, 0]).map
        (fun i => ([5, 3, 4, 1, 2] : List ℤ).getD i 0) =
      (sortDescBy id ([5, 3, 4, 1, 2] : List ℤ)).take 2 ∧
    (sortDescBy id ([5, 3, 4, 1, 2] : List ℤ)).take 2 = [5, 4] :=
  ⟨Or.inr (by decide),
    top_k_selection_agrees ℤ [5, 3, 4, 1, 2] 2 [2, 0] [1, 3, 4]
      (Or.inr (by decide)),
    by decide⟩

theorem cooSum_eq_sum_filter (l : List (Nat × Nat × Nat)) (t d : Nat) :
    cooSum l t d =
      ((l.filter (fun r => r.1 == t && r.2.1 == d)).map (fun r => r.2.2)).sum := by
  induction l with
  | nil => rfl
  | cons r rest ih =>
      obtain ⟨tk, fd, fr⟩ := r
      by_cases h1 : t = tk
      · by_cases h2 : d = fd
        · subst h1; subst h2
          simp [cooSum, ih]
        · subst h1
          have h2' : ¬ (fd = d) := fun h => h2 h.symm
          simp [cooSum, h2, h2', ih]
      · have h1' : ¬ (tk = t) := fun h => h1 h.symm
        simp [cooSum, h1, h1', ih]

/-- C5: `_get_count_matrix` returns the cached matrix when the attribute
is present; otherwise it builds, caches and returns a sparse matrix of
shape (vocabulary size, document count) in which every (token, document)
cell equals the sum of the counts of all accumulated records for that
pair. -/
theorem get_count_matrix_cells (st : AgentState) :
    (∀ m, st.count_matrix = some m → getCountMatrix st = (st, m)) ∧
    (st.count_matrix = none →
      (getCountMatrix st).2.rows = st.all_tokens.length ∧
      (getCountMatrix st).2.cols = st.num_docs ∧
      (getCountMatrix st).1.count_matrix = some (getCountMatrix st).2 ∧
      ∀ t d, (getCountMatrix st).2.entry t d =
        (((records st).filter (fun r => r.1 == t && r.2.1 == d)).map
          (fun r => r.2.2)).sum) := by
  constructor
  · intro m hm
    simp [getCountMatrix, hm]
  · intro hm
    simp [getCountMatrix, hm, cooSum_eq_sum_filter]

/-- C5 witness: on the concrete state `stC5` the cache is absent, the
built matrix has shape (1, 2), the result is cached, every cell is the
filtered record sum, and the duplicate records (0, 1, 2) and (0, 1, 3)
sum to 5 in cell (0, 1). -/
theorem get_count_matrix_cells_witness :
    stC5.count_matrix = none ∧
    ((getCountMatrix stC5).2.rows = stC5.all_tokens.length ∧
      (getCountMatrix stC5).2.cols = stC5.num_docs ∧
      (getCountMatrix stC5).1.count_matrix = some (getCountMatrix stC5).2 ∧
      ∀ t d, (getCountMatrix stC5).2.entry t d =
        (((records stC5).filter (fun r => r.1 == t && r.2.1 == d)).map
          (fun r => r.2.2)).sum) ∧
    (getCountMatrix stC5).2.entry 0 1 = 5 :=
  ⟨rfl, (get_count_matrix_cells stC5).2 rfl, rfl⟩

theorem NsRow_eq_docFreqSpec (cm : CountMatrix) (t : Nat) :
    NsRow cm t = docFreqSpec cm t := by
  unfold NsRow docFreqSpec binaryEntry
  induction List.range cm.cols with
  | nil => rfl
  | cons d rest ih =>
      by_cases h : 0 < cm.entry t d
      · simp [List.countP_cons, h, ih]
        omega
      · simp [List.countP_cons, h, ih]

/-- C7: every entry of the TF-IDF matrix derived from a count matrix
satisfies
`tfidf[t,d] = max(0, log((D - N_t + 0.5) / (N_t + 0.5))) * log(1 + count[t,d])`
where `D` is the document count and `N_t` the number of documents
containing token `t`; the clamped idf is never negative; and a token
occurring in all `D` documents has idf exactly 0. -/
theorem tfidf_formula (cm : CountMatrix) (t d : Nat) :
    tfidfEntry cm t d =
      max 0 (Real.log (((cm.cols : ℝ) - (docFreqSpec cm t : ℝ) + 0.5) /
          ((docFreqSpec cm t : ℝ) + 0.5))) *
        Real.log (1 + (cm.entry t d : ℝ)) ∧
    0 ≤ idfClamped cm t ∧
    (docFreqSpec cm t = cm.cols → idfClamped cm t = 0) := by
  have hns := NsRow_eq_docFreqSpec cm t
  refine ⟨?_, ?_, ?_⟩
  · unfold tfidfEntry tfEntry idfClamped idfRaw
    rw [hns]
    congr 1
    rcases lt_or_le (Real.log (((cm.cols : ℝ) - (docFreqSpec cm t : ℝ) + 0.5) /
        ((docFreqSpec cm t : ℝ) + 0.5))) 0 with h | h
    · rw [if_pos h, max_eq_left h.le]
    · rw [if_neg (not_lt.mpr h), max_eq_right h]
  · unfold idfClamped
    split
    · exact le_rfl
    · next h => exact not_lt.mp h
  · intro hD
    have hle : idfRaw cm t ≤ 0 := by
      unfold idfRaw
      rw [hns, hD]
      have hc : (0 : ℝ) ≤ (cm.cols : ℝ) := Nat.cast_nonneg _
      have h0 : (0 : ℝ) ≤ ((cm.cols : ℝ) - (cm.cols : ℝ) + 0.5) /
          ((cm.cols : ℝ) + 0.5) := by
        apply div_nonneg <;> linarith
      have h1 : ((cm.cols : ℝ) - (cm.cols : ℝ) + 0.5) /
          ((cm.cols : ℝ) + 0.5) ≤ 1 := by
        rw [div_le_one (by linarith)]
        linarith
      exact Real.log_nonpos h0 h1
    unfold idfClamped
    rcases lt_or_le (idfRaw cm t) 0 with h | h
    · rw [if_pos h]
    · rw [if_neg (not_lt.mpr h)]
      exact le_antisymm hle h

/-- C7 witness: on the one-cell matrix `cmOnes` the single token occurs in
all documents, and its clamped idf is exactly 0. -/
theorem tfidf_formula_witness :
    docFreqSpec cmOnes 0 = cmOnes.cols ∧ idfClamped cmOnes 0 = 0 :=
  ⟨rfl, (tfidf_formula cmOnes 0 0).2.2 rfl⟩

/-- C10: when the observation carries no `text` field and no TF-IDF cache
has been built, `act` leaves the vocabulary, the three frequency lists,
the pending-insert wait list and the shared document counter unchanged and
returns the status dict `{'id': 'TfidfRetriever'}`. -/
theorem act_no_text_frame (tok : String → List String) (st : AgentState)
    (obs : Observation) (htext : obs.text = none)
    (hcache : st.tfidfs = none) :
    ∃ st' : AgentState,
      act tok st obs = .ok (st', { id := "TfidfRetriever" }) ∧
      st'.all_tokens = st.all_tokens ∧
      st'.freq_token = st.freq_token ∧
      st'.freq_fact_id = st.freq_fact_id ∧
      st'.freq_freq = st.freq_freq ∧
      st'.insert_wait_list = st.insert_wait_list ∧
      st'.num_docs = st.num_docs := by
  refine ⟨st, ?_, rfl, rfl, rfl, rfl, rfl, rfl⟩
  simp only [act, actInvalidate, hcache, htext]
  rfl

/-- C10 witness: the fresh master state and an observation with no text
field. -/
theorem act_no_text_frame_witness :
    (Observation.mk none).text = none ∧
    initMaster.tfidfs = none ∧
    (∃ st' : AgentState,
      act wsTokenize initMaster (Observation.mk none) =
        .ok (st', { id := "TfidfRetriever" }) ∧
      st'.all_tokens = initMaster.all_tokens ∧
      st'.freq_token = initMaster.freq_token ∧
      st'.freq_fact_id = initMaster.freq_fact_id ∧
      st'.freq_freq = initMaster.freq_freq ∧
      st'.insert_wait_list = initMaster.insert_wait_list ∧
      st'.num_docs = initMaster.num_docs) :=
  ⟨rfl, rfl, act_no_text_frame wsTokenize initMaster (Observation.mk none) rfl rfl⟩

end IrRetrieve
